import Mathlib

/-
Verification of the SQL transpilation core in src/mimic_utils/transpile.py.

The embedding models the abstract-syntax-tree fragments that the
transpiler edits: table-reference nodes (catalog, schema and name
identifiers) and function-call nodes (anonymous and typed variants),
together with the two in-place passes of transpile_query, namely the
catalog normalizer and the function resolver, and the surrounding
parse / transform / render pipeline.
-/

/-- An identifier node: a name string and a quoted flag, as in the SQL
engine identifier node used for table components. -/
structure Ident where
  name : String
  quoted : Bool
deriving DecidableEq, Repr

/-- A table-reference node with the three components the normalizer
touches or must preserve: optional catalog identifier, optional
schema or database identifier, and the leaf name identifier stored
under the key named this in the source. -/
structure Table where
  catalog : Option Ident
  db : Option Ident
  this : Ident
deriving DecidableEq, Repr

/-- The text of the catalog component, the empty string when the
component is absent; mirrors the catalog accessor of the SQL engine
used by the comparison in the source. -/
def Table.catalogText (t : Table) : String :=
  match t.catalog with
  | none => ""
  | some i => i.name

/-- The fixed catalog marker removed by the normalizer. -/
def catalog_to_remove : String := "physionet-data"

/-- Mirrors the Python str.startswith test. -/
def pyStartsWith (s pre : String) : Bool := pre.data.isPrefixOf s.data

/-- Mirrors the Python str.replace with an empty replacement and a
fixed nonempty pattern, scanning left to right and deleting every
nonoverlapping occurrence, continuing after each deleted occurrence. -/
def pyReplaceAux (p0 : Char) (ps : List Char) : Nat → List Char → List Char
  | 0, s => s
  | _ + 1, [] => []
  | fuel + 1, c :: rest =>
    if (p0 :: ps).isPrefixOf (c :: rest) then
      pyReplaceAux p0 ps fuel (rest.drop ps.length)
    else
      c :: pyReplaceAux p0 ps fuel rest

/-- Mirrors the Python expression s.replace(pat, ""). The fuel
argument of the scanner only makes the recursion structural: every
step consumes at least one character, so fuel equal to the length of
the scanned string is never exhausted. -/
def pyReplace (s pat : String) : String :=
  match pat.data with
  | [] => s
  | p0 :: ps => ⟨pyReplaceAux p0 ps s.data.length s.data⟩

/-- The per-node action of the catalog normalizer loop of
transpile_query: if the catalog text equals the marker, clear the
catalog; otherwise if the name of the leaf identifier starts with the
marker, delete every occurrence of the marker followed by a dot from
the name and rebuild the leaf identifier unquoted; otherwise leave
the node alone. -/
def normalizeTable (t : Table) : Table :=
  if t.catalogText = catalog_to_remove then
    { t with catalog := none }
  else if pyStartsWith t.this.name catalog_to_remove then
    { t with this := { name := pyReplace t.this.name (catalog_to_remove ++ "."),
                       quoted := false } }
  else t

/-- A small expression language standing for argument expressions of
function calls; the passes never inspect these values. -/
inductive SExpr where
  | column (name : String)
  | lit (value : String)
  | binop (op : String) (lhs rhs : SExpr)
deriving DecidableEq, Repr

/-- The argument dictionary of an anonymous function-call node in the
SQL engine: the callee-name string under the key named this, and the
ordered positional argument expressions. -/
structure FuncArgs where
  this : String
  expressions : List SExpr
deriving DecidableEq, Repr

/-- Function-call nodes: the anonymous variant produced by the parser,
and the two typed variants DateTime and GenerateArray. Modelled from
the spec: the typed constructors live in the patches module, absent
from src; per the spec a typed node carries the same arguments as the
generic node it replaces, so each constructor stores the argument
dictionary it is given unchanged. -/
inductive FuncNode where
  | anonymous (args : FuncArgs)
  | dateTime (args : FuncArgs)
  | generateArray (args : FuncArgs)
deriving DecidableEq, Repr

/-- The argument dictionary of any function-call node. -/
def FuncNode.fargs : FuncNode → FuncArgs
  | .anonymous a => a
  | .dateTime a => a
  | .generateArray a => a

/-- Whether the node is one of the typed variants. -/
def FuncNode.isTyped : FuncNode → Bool
  | .anonymous _ => false
  | _ => true

/-- The per-node action of the function resolver loop of
transpile_query: an anonymous node whose callee name is exactly
DATETIME or GENERATE_ARRAY is replaced by the corresponding typed
node built from the whole argument dictionary; every other node is
left alone. -/
def resolveAnonymous : FuncNode → FuncNode
  | .anonymous a =>
    if a.this = "DATETIME" then .dateTime a
    else if a.this = "GENERATE_ARRAY" then .generateArray a
    else .anonymous a
  | n => n

/-- A statement tree, abstracted to the node collections the two
passes traverse: its table-reference nodes and its function-call
nodes, each in tree-visitation order. -/
structure Stmt where
  tables : List Table
  funcs : List FuncNode
deriving DecidableEq, Repr

/-- The catalog normalizer pass: edit every table-reference node of
the tree independently. -/
def catalogNormalizer (s : Stmt) : Stmt :=
  { s with tables := s.tables.map normalizeTable }

/-- The function resolver pass, gated on the source dialect as in the
source: only under the bigquery dialect are anonymous nodes visited
and replaced. -/
def functionResolver (source_dialect : String) (s : Stmt) : Stmt :=
  if source_dialect = "bigquery" then
    { s with funcs := s.funcs.map resolveAnonymous }
  else s

/-- The orchestrator transpile_query: parse under the source dialect,
run the catalog normalizer, run the gated function resolver, render
under the destination dialect. The parser and renderer are the
external SQL engine, passed as parameters; a parse failure
propagates and produces no output text. -/
def transpile_query (parse : String → String → Except String Stmt)
    (render : Stmt → String → String)
    (query : String) (source_dialect : String) (destination_dialect : String) :
    Except String String :=
  match parse query source_dialect with
  | .error e => .error e
  | .ok sql_parsed =>
    .ok (render (functionResolver source_dialect (catalogNormalizer sql_parsed))
          destination_dialect)

/-- Whether the pattern occurs as a contiguous substring. -/
def hasOccurrence : List Char → List Char → Bool
  | [], pat => pat.isEmpty
  | c :: rest, pat => pat.isPrefixOf (c :: rest) || hasOccurrence rest pat

/-- Scanning a string in which the pattern never occurs changes
nothing, whatever the fuel. -/
lemma pyReplaceAux_of_no_occurrence (p0 : Char) (ps : List Char) :
    ∀ fuel s, hasOccurrence s (p0 :: ps) = false → pyReplaceAux p0 ps fuel s = s := by
  intro fuel
  induction fuel with
  | zero => intro s _; rfl
  | succ n ih =>
    intro s h
    cases s with
    | nil => rfl
    | cons c rest =>
      unfold hasOccurrence at h
      simp only [Bool.or_eq_false_iff] at h
      unfold pyReplaceAux
      rw [if_neg (by simp [h.1]), ih rest h.2]

/-- Scanning the pattern followed by an occurrence-free remainder
deletes exactly the leading pattern. -/
lemma pyReplaceAux_strip (p0 : Char) (ps rest : List Char) (n : Nat)
    (h : hasOccurrence rest (p0 :: ps) = false) :
    pyReplaceAux p0 ps (n + 1) (p0 :: (ps ++ rest)) = rest := by
  have hpre : (p0 :: ps).isPrefixOf (p0 :: (ps ++ rest)) = true := by
    rw [List.isPrefixOf_iff_prefix]
    exact List.prefix_append (p0 :: ps) rest
  unfold pyReplaceAux
  rw [if_pos hpre, List.drop_left ps rest]
  exact pyReplaceAux_of_no_occurrence p0 ps n rest h

/-- Deleting every occurrence of a nonempty pattern from a string that
is the pattern followed by an occurrence-free remainder yields exactly
the remainder. -/
lemma pyReplace_prefix_strip (pat rest : String) (p0 : Char) (ps : List Char)
    (hp : pat.data = p0 :: ps)
    (h : hasOccurrence rest.data (p0 :: ps) = false) :
    pyReplace (pat ++ rest) pat = rest := by
  have hdata : (pat ++ rest).data = p0 :: (ps ++ rest.data) := by
    rw [String.data_append, hp]; rfl
  have hlen : (pat ++ rest).data.length = (ps ++ rest.data).length + 1 := by
    rw [hdata]; rfl
  unfold pyReplace
  rw [hp]
  show (⟨pyReplaceAux p0 ps (pat ++ rest).data.length (pat ++ rest).data⟩ : String) = rest
  rw [hlen, hdata, pyReplaceAux_strip p0 ps rest.data _ h]

/-- A string starts with any string it extends on the right. -/
lemma pyStartsWith_append (s t : String) : pyStartsWith (s ++ t) s = true := by
  unfold pyStartsWith
  rw [String.data_append, List.isPrefixOf_iff_prefix]
  exact List.prefix_append s.data t.data

/-- A table node that matches neither the catalog test nor the
name-prefix test is left alone by the normalizer. -/
lemma normalizeTable_eq_self (t : Table) (hc : t.catalogText ≠ catalog_to_remove)
    (hsw : pyStartsWith t.this.name catalog_to_remove = false) :
    normalizeTable t = t := by
  unfold normalizeTable
  rw [if_neg hc, if_neg (by simp [hsw])]

/-- After one normalizer visit, the catalog text never equals the
marker again. -/
lemma catalogText_normalizeTable (t : Table) :
    (normalizeTable t).catalogText ≠ catalog_to_remove := by
  unfold normalizeTable
  split_ifs with h1 h2
  · have hnone : Table.catalogText { t with catalog := none } = "" := rfl
    rw [hnone]
    decide
  · exact h1
  · exact h1

/-- Claim C1, counterexample: the claim predicts that a quoted table name
that starts with the marker without a dot boundary, here
physionet-data2.foo, is left structurally unchanged when the catalog
also differs from the marker; the code instead takes the rewrite
branch, because its prefix test uses the marker without the trailing
dot, and rebuilds the identifier with the quoted flag cleared. -/
theorem normalizer_alters_dotless_marker_prefix :
    Table.catalogText ⟨none, none, ⟨"physionet-data2.foo", true⟩⟩ ≠ catalog_to_remove ∧
    pyStartsWith "physionet-data2.foo" (catalog_to_remove ++ ".") = false ∧
    normalizeTable ⟨none, none, ⟨"physionet-data2.foo", true⟩⟩ ≠
      ⟨none, none, ⟨"physionet-data2.foo", true⟩⟩ := by
  refine ⟨by decide, by decide, by decide⟩

/-- Claim C1, amended: a table node whose catalog text differs from the
marker and whose name does not start with the marker at all, dot or
no dot, is left structurally unchanged by the catalog normalizer. -/
theorem normalizer_noop_outside_marker (t : Table)
    (hc : t.catalogText ≠ catalog_to_remove)
    (hsw : pyStartsWith t.this.name catalog_to_remove = false) :
    normalizeTable t = t :=
  normalizeTable_eq_self t hc hsw

/-- Claim C1, witness: the no-op case at a plain schema-qualified table. -/
theorem normalizer_noop_outside_marker_witness :
    normalizeTable ⟨none, some ⟨"mimiciv", false⟩, ⟨"patients", false⟩⟩ =
      ⟨none, some ⟨"mimiciv", false⟩, ⟨"patients", false⟩⟩ :=
  normalizer_noop_outside_marker _ (by decide) (by decide)

/-- Claim C2, counterexample: for the single identifier
physionet-data.physionet-data.x, which is the marker, a dot and the
remainder physionet-data.x, the claim predicts the rewritten name
physionet-data.x; the code deletes every occurrence of the pattern
and produces x. -/
theorem normalizer_strips_all_occurrences_cex :
    (⟨none, none, ⟨"physionet-data.physionet-data.x", true⟩⟩ : Table).this.name =
      catalog_to_remove ++ "." ++ "physionet-data.x" ∧
    (normalizeTable ⟨none, none, ⟨"physionet-data.physionet-data.x", true⟩⟩).this.name = "x" ∧
    ("x" : String) ≠ "physionet-data.x" := by
  refine ⟨by decide, by decide, by decide⟩

/-- Claim C2, amended: on a table node whose catalog text differs from
the marker and whose name is the marker, a dot, and a remainder in
which the pattern marker-dot never occurs again, the normalizer
rewrites the name to exactly that remainder and marks the identifier
unquoted. When the remainder contains further occurrences of the
pattern they are deleted as well, so the result is the name with
every occurrence of the pattern removed, not the remainder itself. -/
theorem normalizer_strips_marker_prefix (t : Table) (rest : String)
    (hc : t.catalogText ≠ catalog_to_remove)
    (hname : t.this.name = catalog_to_remove ++ "." ++ rest)
    (hrest : hasOccurrence rest.data ('p' :: "hysionet-data.".data) = false) :
    normalizeTable t = { t with this := { name := rest, quoted := false } } := by
  have hsw : pyStartsWith t.this.name catalog_to_remove = true := by
    rw [hname, String.append_assoc]
    exact pyStartsWith_append catalog_to_remove ("." ++ rest)
  have hps : (catalog_to_remove ++ ".").data = 'p' :: "hysionet-data.".data := by decide
  unfold normalizeTable
  rw [if_neg hc, if_pos hsw, hname,
      pyReplace_prefix_strip (catalog_to_remove ++ ".") rest 'p' "hysionet-data.".data hps hrest]

/-- Claim C2, witness: the typical fully qualified reference. -/
theorem normalizer_strips_marker_prefix_witness :
    normalizeTable ⟨none, none, ⟨"physionet-data.mimiciv.patients", true⟩⟩ =
      ⟨none, none, ⟨"mimiciv.patients", false⟩⟩ :=
  normalizer_strips_marker_prefix ⟨none, none, ⟨"physionet-data.mimiciv.patients", true⟩⟩
    "mimiciv.patients" (by decide) (by decide) (by decide)

/-- Claim C4: on a table node whose catalog text equals the marker
exactly, the normalizer clears the catalog component and leaves the
schema and name components, quoting included, unchanged. -/
theorem normalizer_clears_matching_catalog (t : Table)
    (h : t.catalogText = catalog_to_remove) :
    normalizeTable t = { t with catalog := none } := by
  unfold normalizeTable
  rw [if_pos h]

/-- Claim C4, witness: a three-part reference loses only its catalog. -/
theorem normalizer_clears_matching_catalog_witness :
    normalizeTable ⟨some ⟨"physionet-data", true⟩, some ⟨"mimiciv", false⟩, ⟨"patients", false⟩⟩ =
      ⟨none, some ⟨"mimiciv", false⟩, ⟨"patients", false⟩⟩ :=
  normalizer_clears_matching_catalog
    ⟨some ⟨"physionet-data", true⟩, some ⟨"mimiciv", false⟩, ⟨"patients", false⟩⟩ (by decide)

/-- Claim C8, counterexample: a tree with one table whose catalog is
the marker and whose name identifier is marker-dot-foo. The first
pass only clears the catalog; the second pass then also rewrites the
name and clears its quoted flag, so the second pass is not a no-op. -/
theorem normalizer_idempotence_cex :
    catalogNormalizer (catalogNormalizer
        ⟨[⟨some ⟨"physionet-data", false⟩, none, ⟨"physionet-data.foo", true⟩⟩], []⟩) ≠
      catalogNormalizer
        ⟨[⟨some ⟨"physionet-data", false⟩, none, ⟨"physionet-data.foo", true⟩⟩], []⟩ := by
  decide

/-- Claim C8, amended: the catalog normalizer pass is idempotent on
every tree in which no table node, once normalized, has a name that
still starts with the marker; in particular a second pass never
re-enters the catalog branch, and only a normalized name that still
starts with the marker can trigger further rewriting. -/
theorem normalizer_idempotent_on_clean_names (s : Stmt)
    (h : ∀ t ∈ s.tables, pyStartsWith (normalizeTable t).this.name catalog_to_remove = false) :
    catalogNormalizer (catalogNormalizer s) = catalogNormalizer s := by
  have htab : (s.tables.map normalizeTable).map normalizeTable = s.tables.map normalizeTable := by
    rw [List.map_map]
    exact List.map_congr_left (fun t ht =>
      normalizeTable_eq_self (normalizeTable t) (catalogText_normalizeTable t) (h t ht))
  show Stmt.mk ((s.tables.map normalizeTable).map normalizeTable) s.funcs =
    Stmt.mk (s.tables.map normalizeTable) s.funcs
  rw [htab]

/-- Claim C8, witness: a tree whose single table reference carries the
marker as its catalog and a clean name. -/
theorem normalizer_idempotent_on_clean_names_witness :
    catalogNormalizer (catalogNormalizer
        ⟨[⟨some ⟨"physionet-data", false⟩, some ⟨"mimiciv", false⟩, ⟨"patients", false⟩⟩], []⟩) =
      catalogNormalizer
        ⟨[⟨some ⟨"physionet-data", false⟩, some ⟨"mimiciv", false⟩, ⟨"patients", false⟩⟩], []⟩ :=
  normalizer_idempotent_on_clean_names
    ⟨[⟨some ⟨"physionet-data", false⟩, some ⟨"mimiciv", false⟩, ⟨"patients", false⟩⟩], []⟩
    (by decide)

/-- Claim C3: an anonymous call whose callee name exactly matches a
substitution key is replaced in place by a typed node whose ordered
argument list is element-wise identical to the original one; no
argument is reordered, dropped, renamed or evaluated. -/
theorem resolver_replaces_known_call (a : FuncArgs)
    (h : a.this = "DATETIME" ∨ a.this = "GENERATE_ARRAY") :
    (resolveAnonymous (.anonymous a)).isTyped = true ∧
    (resolveAnonymous (.anonymous a)).fargs.expressions = a.expressions := by
  rcases h with h | h
  · simp only [resolveAnonymous]
    rw [if_pos h]
    exact ⟨rfl, rfl⟩
  · simp only [resolveAnonymous]
    rw [if_neg (show ¬(a.this = "DATETIME") by rw [h]; decide), if_pos h]
    exact ⟨rfl, rfl⟩

/-- Claim C3, witness: a DATETIME call with two arguments. -/
theorem resolver_replaces_known_call_witness :
    (resolveAnonymous (.anonymous ⟨"DATETIME", [SExpr.column "admittime", SExpr.lit "UTC"]⟩)).isTyped
        = true ∧
    (resolveAnonymous
        (.anonymous ⟨"DATETIME", [SExpr.column "admittime", SExpr.lit "UTC"]⟩)).fargs.expressions
      = [SExpr.column "admittime", SExpr.lit "UTC"] :=
  resolver_replaces_known_call ⟨"DATETIME", [SExpr.column "admittime", SExpr.lit "UTC"]⟩
    (Or.inl rfl)

/-- Claim C10: the typed node built by the resolver takes the whole
argument dictionary of the anonymous node, key for key, so the slot
named this still carries the original callee-name string. -/
theorem resolver_passes_args_key_for_key (a : FuncArgs)
    (h : a.this = "DATETIME" ∨ a.this = "GENERATE_ARRAY") :
    (resolveAnonymous (.anonymous a)).fargs = a ∧
    (resolveAnonymous (.anonymous a)).fargs.this = a.this := by
  rcases h with h | h
  · simp only [resolveAnonymous]
    rw [if_pos h]
    exact ⟨rfl, rfl⟩
  · simp only [resolveAnonymous]
    rw [if_neg (show ¬(a.this = "DATETIME") by rw [h]; decide), if_pos h]
    exact ⟨rfl, rfl⟩

/-- Claim C10, witness: a GENERATE_ARRAY call keeps its callee name in
the slot named this. -/
theorem resolver_passes_args_key_for_key_witness :
    (resolveAnonymous (.anonymous ⟨"GENERATE_ARRAY", [SExpr.lit "1", SExpr.lit "10"]⟩)).fargs
        = ⟨"GENERATE_ARRAY", [SExpr.lit "1", SExpr.lit "10"]⟩ ∧
    (resolveAnonymous (.anonymous ⟨"GENERATE_ARRAY", [SExpr.lit "1", SExpr.lit "10"]⟩)).fargs.this
        = "GENERATE_ARRAY" :=
  resolver_passes_args_key_for_key ⟨"GENERATE_ARRAY", [SExpr.lit "1", SExpr.lit "10"]⟩
    (Or.inr rfl)

/-- Claim C5: an anonymous call whose callee name matches no
substitution key, case-sensitively, is left untouched by the
resolver. -/
theorem resolver_noop_on_unknown_name (a : FuncArgs)
    (h1 : a.this ≠ "DATETIME") (h2 : a.this ≠ "GENERATE_ARRAY") :
    resolveAnonymous (.anonymous a) = .anonymous a := by
  simp only [resolveAnonymous]
  rw [if_neg h1, if_neg h2]

/-- Claim C5, witness: the lower-case name datetime differs only in
case from a key and is still left untouched. -/
theorem resolver_noop_on_unknown_name_witness :
    resolveAnonymous (.anonymous ⟨"datetime", [SExpr.column "col"]⟩) =
      .anonymous ⟨"datetime", [SExpr.column "col"]⟩ :=
  resolver_noop_on_unknown_name ⟨"datetime", [SExpr.column "col"]⟩ (by decide) (by decide)

/-- Claim C6: for any source dialect other than bigquery the function
resolver step is skipped entirely, leaving every function-call node
of the tree, anonymous ones included, unmodified. -/
theorem resolver_skipped_for_other_dialects (source_dialect : String) (s : Stmt)
    (h : source_dialect ≠ "bigquery") :
    functionResolver source_dialect s = s := by
  unfold functionResolver
  rw [if_neg h]

/-- Claim C6, witness: under the postgres dialect even an anonymous
DATETIME call survives the resolver step unchanged. -/
theorem resolver_skipped_for_other_dialects_witness :
    functionResolver "postgres"
        ⟨[], [.anonymous ⟨"DATETIME", [SExpr.column "admittime"]⟩]⟩ =
      ⟨[], [.anonymous ⟨"DATETIME", [SExpr.column "admittime"]⟩]⟩ :=
  resolver_skipped_for_other_dialects "postgres"
    ⟨[], [.anonymous ⟨"DATETIME", [SExpr.column "admittime"]⟩]⟩ (by decide)

/-- Claim C7: when the parser rejects the input text under the source
dialect, transpile_query propagates the parse error to the caller and
returns no rendered text at all. -/
theorem transpile_query_propagates_parse_error
    (parse : String → String → Except String Stmt) (render : Stmt → String → String)
    (query source_dialect destination_dialect e : String)
    (h : parse query source_dialect = .error e) :
    transpile_query parse render query source_dialect destination_dialect =
      Except.error e := by
  unfold transpile_query
  rw [h]

/-- Claim C7, witness: a parser that rejects an unbalanced query makes
the whole transpilation fail with that error. -/
theorem transpile_query_propagates_parse_error_witness :
    transpile_query (fun _ _ => Except.error "ParseError") (fun _ _ => "")
        "SELECT ((" "bigquery" "postgres" = Except.error "ParseError" :=
  transpile_query_propagates_parse_error (fun _ _ => Except.error "ParseError")
    (fun _ _ => "") "SELECT ((" "bigquery" "postgres" "ParseError" rfl

/-- Claim C9: transpile_query is deterministic: with the same parser
and renderer, two runs on equal query texts, equal source dialects
and equal destination dialects return identical results; the output
depends on nothing else. -/
theorem transpile_query_deterministic
    (parse : String → String → Except String Stmt) (render : Stmt → String → String)
    (q1 q2 sd1 sd2 dd1 dd2 : String)
    (hq : q1 = q2) (hs : sd1 = sd2) (hd : dd1 = dd2) :
    transpile_query parse render q1 sd1 dd1 = transpile_query parse render q2 sd2 dd2 := by
  rw [hq, hs, hd]

/-- Claim C9, witness: two identical runs at a concrete input. -/
theorem transpile_query_deterministic_witness :
    transpile_query (fun _ _ => Except.ok ⟨[], []⟩) (fun _ d => d)
        "SELECT 1" "bigquery" "postgres" =
      transpile_query (fun _ _ => Except.ok ⟨[], []⟩) (fun _ d => d)
        "SELECT 1" "bigquery" "postgres" :=
  transpile_query_deterministic (fun _ _ => Except.ok ⟨[], []⟩) (fun _ d => d)
    "SELECT 1" "SELECT 1" "bigquery" "bigquery" "postgres" "postgres" rfl rfl rfl
